import Mathlib

/-!
A shallow embedding of the BadgerDB buffer manager (`src/buffer.cpp`) and proofs
about its public operations.

Modelling conventions:
* `File*` pointers become natural-number file identities; `0` models the NULL
  pointer (a frame cleared by `BufDesc::Clear` has `file = 0`).
* `Page` keeps its page number and an abstract `data` field for its content.
* The external Page Store is not part of the manager's state: content coming
  from the store (`File::readPage`, `File::allocatePage`) is passed in as an
  argument, and calls going out to the store (`writePage`, `deletePage`,
  `allocatePage`) are recorded as an event list in each operation's result.
* C++ exceptions become an `Except`-style result; `HashNotFoundException`,
  which `buffer.cpp` uses purely as a hit/miss signal, becomes an `Option`
  returned by the hash-table lookup.
* The `while (1)` loop of `BufMgr::allocBuf` checks `clockHand == start` after
  every advance, and that test fires exactly every `numBufs` iterations, so the
  loop is embedded as a sequence of fixed-length revolutions (`revLoop`) driven
  by a revolution counter (`allocLoop`).  Two revolutions always suffice (this
  is proved below), so `allocBuf` runs `allocLoop` with fuel 2 and the
  fuel-exhaustion case is shown unreachable.
-/

namespace BadgerDB

abbrev FileId := Nat
abbrev PageId := Nat
abbrev FrameId := Nat

/-- A disk page: its page number plus abstract content. -/
structure Page where
  page_number : PageId
  data : Nat
deriving DecidableEq, Repr, Inhabited

/-- Per-frame metadata, from `class BufDesc` (the `frameNo` field, which only
mirrors the frame's own index and is never consulted by `buffer.cpp`'s logic,
is omitted). -/
structure BufDesc where
  file : FileId
  pageNo : PageId
  pinCnt : Nat
  dirty : Bool
  valid : Bool
  refbit : Bool
deriving DecidableEq, Repr

/-- Modelled from the spec: `markFree` / `BufDesc::Clear`, the missing header's
reset of a frame descriptor — owner absent (NULL file, invalid page number 0),
pin count zero, all flags false. -/
def BufDesc.Clear : BufDesc :=
  { file := 0, pageNo := 0, pinCnt := 0, dirty := false, valid := false, refbit := false }

/-- Modelled from the spec: `BufDesc::Set(file, pageNo)` from the missing
header — initialize the frame table entry with valid=true, pinCount=1,
dirty=false, refBit=true, owner=(file, pageNo). -/
def BufDesc.Set (f : FileId) (p : PageId) : BufDesc :=
  { file := f, pageNo := p, pinCnt := 1, dirty := false, valid := true, refbit := true }

/-- The fields of a frame descriptor other than the reference bit (the clock
sweep may clear reference bits of frames it passes over; everything else on a
passed-over frame is preserved). -/
def BufDesc.core (d : BufDesc) : FileId × PageId × Nat × Bool × Bool :=
  (d.file, d.pageNo, d.pinCnt, d.dirty, d.valid)

/-- Modelled from the spec: the Page Index (`BufHashTbl`, whose source is not
in the repository) as an association list keyed by (file identity, page
number).  Lookup distinguishes hit from miss; insert overwrites silently if the
key is re-inserted; a remove of an absent key is treated as non-fatal by every
call site, so it is embedded as erase-if-present. -/
abbrev HashTbl := List ((FileId × PageId) × FrameId)

def HashTbl.lookup (h : HashTbl) (f : FileId) (p : PageId) : Option FrameId :=
  (h.find? (fun e => e.1 = (f, p))).map (·.2)

def HashTbl.insert (h : HashTbl) (f : FileId) (p : PageId) (fr : FrameId) : HashTbl :=
  ((f, p), fr) :: h.filter (fun e => e.1 ≠ (f, p))

def HashTbl.remove (h : HashTbl) (f : FileId) (p : PageId) : HashTbl :=
  h.filter (fun e => e.1 ≠ (f, p))

/-- The buffer manager's state: the fields of `class BufMgr`. -/
structure BufState where
  numBufs : Nat
  bufDescTable : List BufDesc
  bufPool : List Page
  hashTable : HashTbl
  clockHand : Nat
deriving DecidableEq, Repr

/-- `bufDescTable[i]`.  Out-of-range access (impossible in states built by the
constructor) defaults to a cleared descriptor. -/
def BufState.descAt (s : BufState) (i : Nat) : BufDesc :=
  s.bufDescTable.getD i BufDesc.Clear

/-- `bufDescTable[i] = d`. -/
def BufState.setDesc (s : BufState) (i : Nat) (d : BufDesc) : BufState :=
  { s with bufDescTable := s.bufDescTable.set i d }

/-- `bufPool[i]`. -/
def BufState.pageAt (s : BufState) (i : Nat) : Page :=
  s.bufPool.getD i default

/-- `BufMgr::BufMgr(bufs)`: all descriptors start invalid (the `BufDesc`
default constructor clears them), the pool holds `bufs` frames, the hash table
is empty, and the clock hand starts at `bufs - 1`. -/
def initBufMgr (bufs : Nat) : BufState :=
  { numBufs := bufs
    bufDescTable := List.replicate bufs BufDesc.Clear
    bufPool := List.replicate bufs default
    hashTable := []
    clockHand := bufs - 1 }

/-- Calls made to the external Page Store, recorded as events. -/
inductive Ev where
  | write (f : FileId) (pg : Page)
  | del (f : FileId) (p : PageId)
  | allocP (f : FileId)
deriving DecidableEq, Repr

/-- The exceptions `buffer.cpp` can surface to its caller.  `fuelOut` is an
artifact of the fuel-based embedding of the clock loop and is proved
unreachable. -/
inductive BufErr where
  | bufferExceeded
  | notPinned
  | pagePinned
  | badBuffer
  | fuelOut
deriving DecidableEq, Repr

deriving instance DecidableEq for Except

/-- Result of a public operation: the returned value or surfaced exception, the
manager state after the call, and the Page Store calls it made. -/
structure OpRes (α : Type) where
  res : Except BufErr α
  st : BufState
  evs : List Ev
deriving DecidableEq, Repr

/-- `BufMgr::advanceClock()`. -/
def advanceClock (s : BufState) : BufState :=
  { s with clockHand := (s.clockHand + 1) % s.numBufs }

/-- Clear the reference bit of frame `i` (the unconditional
`bufDescTable[clockHand].refbit = false` at the bottom of the sweep loop). -/
def clearRef (s : BufState) (i : Nat) : BufState :=
  s.setDesc i { s.descAt i with refbit := false }

/-- One iteration of the `while (1)` loop in `BufMgr::allocBuf`: advance the
clock, then examine the frame under the hand.  `Sum.inl` is the `return` path
(chosen frame, state, Page Store writes); `Sum.inr` is the fall-through to the
unconditional refbit clearing, paired with whether this visit observed an
unpinned valid frame (`foundUnpin = true` assignment). -/
def visit (s : BufState) : (FrameId × BufState × List Ev) ⊕ (BufState × Bool) :=
  let s1 := advanceClock s
  let h := s1.clockHand
  let d := s1.descAt h
  if d.valid = false then
    .inl (h, s1, [])
  else if d.pinCnt = 0 ∧ d.refbit = false then
    if d.dirty = true then
      .inl (h,
        { s1.setDesc h BufDesc.Clear with
            hashTable := HashTbl.remove s1.hashTable d.file d.pageNo },
        [Ev.write d.file (s1.pageAt h)])
    else
      .inl (h, s1, [])
  else
    .inr (clearRef s1 h, decide (d.pinCnt = 0))

/-- Outcome of one clock revolution (the segment of the sweep between two
`clockHand == start` tests). -/
inductive RevRes where
  | returned (frame : FrameId) (s : BufState) (evs : List Ev)
  | completed (s : BufState) (found : Bool)
deriving DecidableEq, Repr

/-- `k` iterations of the sweep loop, accumulating `foundUnpin`. -/
def revLoop : Nat → BufState → Bool → RevRes
  | 0, s, found => .completed s found
  | k + 1, s, found =>
    match visit s with
    | .inl (fr, s', evs) => .returned fr s' evs
    | .inr (s', saw) => revLoop k s' (found || saw)

/-- Outcome of `BufMgr::allocBuf`. -/
inductive AllocRes where
  | ok (frame : FrameId) (s : BufState) (evs : List Ev)
  | exceeded (s : BufState)
  | outOfFuel (s : BufState)
deriving DecidableEq, Repr

/-- Run whole revolutions: each revolution restarts `foundUnpin` at false (the
source resets it at every `clockHand == start` test) and throws
`BufferExceededException` when a revolution completes with it still false. -/
def allocLoop : Nat → BufState → AllocRes
  | 0, s => .outOfFuel s
  | fuel + 1, s =>
    match revLoop s.numBufs s false with
    | .returned fr s' evs => .ok fr s' evs
    | .completed s' found => if found then allocLoop fuel s' else .exceeded s'

/-- `BufMgr::allocBuf`.  Two revolutions always suffice to either select a
frame or detect exhaustion (proved below), so fuel 2 is exact. -/
def allocBuf (s : BufState) : AllocRes := allocLoop 2 s

/-- The frame chosen by an `allocBuf` outcome, if any. -/
def AllocRes.victim : AllocRes → Option FrameId
  | .ok fr _ _ => some fr
  | _ => none

/-- The manager state after an `allocBuf` call, whatever its outcome. -/
def AllocRes.stateAfter : AllocRes → BufState
  | .ok _ s _ => s
  | .exceeded s => s
  | .outOfFuel s => s

/-- `BufMgr::readPage(file, pageNo, page)`.  `content` is the page the Page
Store would return for `file->readPage(pageNo)` on the miss path; the returned
value is the frame whose pool slot holds the page (the handle). -/
def readPage (f : FileId) (p : PageId) (content : Page) (s : BufState) : OpRes FrameId :=
  match s.hashTable.lookup f p with
  | some frame =>
    let d := s.descAt frame
    { res := .ok frame
      st := s.setDesc frame { d with refbit := true, pinCnt := d.pinCnt + 1 }
      evs := [] }
  | none =>
    match allocBuf s with
    | .ok frame s1 evs =>
      { res := .ok frame
        st := { s1.setDesc frame (BufDesc.Set f p) with
                  bufPool := s1.bufPool.set frame content
                  hashTable := HashTbl.insert s1.hashTable f p frame }
        evs := evs }
    | .exceeded s1 => { res := .error .bufferExceeded, st := s1, evs := [] }
    | .outOfFuel s1 => { res := .error .fuelOut, st := s1, evs := [] }

/-- `BufMgr::unPinPage(file, pageNo, dirty)`. -/
def unPinPage (f : FileId) (p : PageId) (dirty : Bool) (s : BufState) : OpRes Unit :=
  match s.hashTable.lookup f p with
  | none => { res := .ok (), st := s, evs := [] }
  | some frame =>
    let d := s.descAt frame
    if d.pinCnt = 0 then
      { res := .error .notPinned, st := s, evs := [] }
    else
      { res := .ok ()
        st := s.setDesc frame { d with pinCnt := d.pinCnt - 1, dirty := d.dirty || dirty }
        evs := [] }

/-- The per-frame body of `BufMgr::flushFile`, scanning frames `i, i+1, ...`
for `k` more steps. -/
def flushLoop (f : FileId) : Nat → Nat → BufState → List Ev → OpRes Unit
  | _, 0, s, evs => { res := .ok (), st := s, evs := evs }
  | i, k + 1, s, evs =>
    let d := s.descAt i
    if d.file = f then
      if d.valid = false then
        { res := .error .badBuffer, st := s, evs := evs }
      else if 0 < d.pinCnt then
        { res := .error .pagePinned, st := s, evs := evs }
      else
        flushLoop f (i + 1) k
          { numBufs := s.numBufs
            bufDescTable := s.bufDescTable.set i BufDesc.Clear
            bufPool := s.bufPool
            hashTable := HashTbl.remove s.hashTable f d.pageNo
            clockHand := s.clockHand }
          (evs ++ if d.dirty then [Ev.write f (s.pageAt i)] else [])
    else
      flushLoop f (i + 1) k s evs

/-- `BufMgr::flushFile(file)`. -/
def flushFile (f : FileId) (s : BufState) : OpRes Unit :=
  flushLoop f 0 s.numBufs s []

/-- `BufMgr::allocPage(file, pageNo, page)`.  `newPg` is the page the Page
Store's `file->allocatePage()` returns (it carries its assigned number); the
`allocP` event records that this store-side allocation happened before the
buffer frame was requested. -/
def allocPage (f : FileId) (newPg : Page) (s : BufState) : OpRes (PageId × FrameId) :=
  match allocBuf s with
  | .ok frame s1 evs =>
    { res := .ok (newPg.page_number, frame)
      st := { s1.setDesc frame (BufDesc.Set f newPg.page_number) with
                bufPool := s1.bufPool.set frame newPg
                hashTable := HashTbl.insert s1.hashTable f newPg.page_number frame }
      evs := Ev.allocP f :: evs }
  | .exceeded s1 => { res := .error .bufferExceeded, st := s1, evs := [Ev.allocP f] }
  | .outOfFuel s1 => { res := .error .fuelOut, st := s1, evs := [Ev.allocP f] }

/-- `BufMgr::disposePage(file, PageNo)`. -/
def disposePage (f : FileId) (p : PageId) (s : BufState) : OpRes Unit :=
  match s.hashTable.lookup f p with
  | some frame =>
    if 0 < (s.descAt frame).pinCnt then
      { res := .error .pagePinned, st := s, evs := [] }
    else
      { res := .ok ()
        st := { s.setDesc frame BufDesc.Clear with hashTable := HashTbl.remove s.hashTable f p }
        evs := [Ev.del f p] }
  | none => { res := .ok (), st := s, evs := [Ev.del f p] }

/-- All frames valid and pinned: the pool-exhaustion condition that a full
clock revolution detects. -/
def allFramesPinned (s : BufState) : Prop :=
  ∀ i < s.numBufs, (s.descAt i).valid = true ∧ (s.descAt i).pinCnt ≠ 0

instance (s : BufState) : Decidable (allFramesPinned s) :=
  inferInstanceAs (Decidable (∀ i < s.numBufs, _ ∧ _))

/-! ### Basic facts about frame-table access -/

theorem descAt_setDesc_ne (s : BufState) (i j : Nat) (d : BufDesc) (h : i ≠ j) :
    (s.setDesc i d).descAt j = s.descAt j := by
  simp [BufState.setDesc, BufState.descAt, List.getD_eq_getElem?_getD, List.getElem?_set_ne h]

theorem descAt_setDesc_self (s : BufState) (i : Nat) (d : BufDesc)
    (h : i < s.bufDescTable.length) : (s.setDesc i d).descAt i = d := by
  simp [BufState.setDesc, BufState.descAt, List.getD_eq_getElem?_getD, List.getElem?_set_self, h]

theorem descAt_oob (s : BufState) (i : Nat) (h : s.bufDescTable.length ≤ i) :
    s.descAt i = BufDesc.Clear := by
  simp [BufState.descAt, List.getD_eq_getElem?_getD, List.getElem?_eq_none h]

/-- A frame the table reports as valid really is a slot of the table (the
out-of-range default is a cleared, invalid descriptor). -/
theorem lt_length_of_valid (s : BufState) (i : Nat) (h : (s.descAt i).valid = true) :
    i < s.bufDescTable.length := by
  by_contra hlt
  rw [descAt_oob s i (Nat.le_of_not_lt hlt)] at h
  simp [BufDesc.Clear] at h

/-- A frame with a nonzero pin count is a slot of the table. -/
theorem lt_length_of_pinned (s : BufState) (i : Nat) (h : (s.descAt i).pinCnt ≠ 0) :
    i < s.bufDescTable.length := by
  by_contra hlt
  rw [descAt_oob s i (Nat.le_of_not_lt hlt)] at h
  simp [BufDesc.Clear] at h

/-- Setting a slot to a cleared descriptor leaves that slot reading as cleared
whether or not the index is in range. -/
theorem descAt_setDesc_clear (s : BufState) (i : Nat) :
    (s.setDesc i BufDesc.Clear).descAt i = BufDesc.Clear := by
  by_cases h : i < s.bufDescTable.length
  · exact descAt_setDesc_self s i _ h
  · have : (s.setDesc i BufDesc.Clear).bufDescTable.length ≤ i := by
      simpa [BufState.setDesc] using Nat.le_of_not_lt h
    exact descAt_oob _ i this

/-! ### Frame-descriptor cores and states related by a sweep

The clock sweep may clear reference bits of frames it passes over but changes
nothing else on them; `sameCore` captures "same except possibly the reference
bit", and `passedOver s t` says `t` is `s` after some pass of the sweep that
selected nothing: same pool, index and capacity, same cores, and no reference
bit ever switched from clear to set. -/

def sameCore (d e : BufDesc) : Prop :=
  d.file = e.file ∧ d.pageNo = e.pageNo ∧ d.pinCnt = e.pinCnt ∧
    d.dirty = e.dirty ∧ d.valid = e.valid

theorem sameCore_refl (d : BufDesc) : sameCore d d := ⟨rfl, rfl, rfl, rfl, rfl⟩

theorem sameCore_trans {d e g : BufDesc} (h1 : sameCore d e) (h2 : sameCore e g) :
    sameCore d g := by
  obtain ⟨a1, b1, c1, d1, e1⟩ := h1
  obtain ⟨a2, b2, c2, d2, e2⟩ := h2
  exact ⟨a1.trans a2, b1.trans b2, c1.trans c2, d1.trans d2, e1.trans e2⟩

def passedOver (s t : BufState) : Prop :=
  t.numBufs = s.numBufs ∧ t.hashTable = s.hashTable ∧ t.bufPool = s.bufPool ∧
    (∀ i, sameCore (t.descAt i) (s.descAt i)) ∧
    (∀ i, (s.descAt i).refbit = false → (t.descAt i).refbit = false)

theorem passedOver_refl (s : BufState) : passedOver s s :=
  ⟨rfl, rfl, rfl, fun _ => sameCore_refl _, fun _ h => h⟩

theorem passedOver_trans {s t u : BufState} (h1 : passedOver s t) (h2 : passedOver t u) :
    passedOver s u := by
  obtain ⟨a1, b1, c1, d1, e1⟩ := h1
  obtain ⟨a2, b2, c2, d2, e2⟩ := h2
  exact ⟨a2.trans a1, b2.trans b1, c2.trans c1,
    fun i => sameCore_trans (d2 i) (d1 i), fun i h => e2 i (e1 i h)⟩

theorem passedOver_advanceClock (s : BufState) : passedOver s (advanceClock s) :=
  ⟨rfl, rfl, rfl, fun _ => sameCore_refl _, fun _ h => h⟩

theorem sameCore_clearRef (s : BufState) (i j : Nat) :
    sameCore ((clearRef s i).descAt j) (s.descAt j) := by
  by_cases h : i = j
  · subst h
    by_cases hl : i < s.bufDescTable.length
    · rw [clearRef, descAt_setDesc_self s i _ hl]
      exact ⟨rfl, rfl, rfl, rfl, rfl⟩
    · rw [clearRef, BufState.setDesc]
      rw [List.set_eq_of_length_le (Nat.le_of_not_lt hl)]
      exact sameCore_refl _
  · rw [clearRef, descAt_setDesc_ne s i j _ h]
    exact sameCore_refl _

theorem refbit_clearRef (s : BufState) (i j : Nat) (h : (s.descAt j).refbit = false) :
    ((clearRef s i).descAt j).refbit = false := by
  by_cases hij : i = j
  · subst hij
    by_cases hl : i < s.bufDescTable.length
    · rw [clearRef, descAt_setDesc_self s i _ hl]
    · rw [clearRef, BufState.setDesc, List.set_eq_of_length_le (Nat.le_of_not_lt hl)]
      exact h
  · rw [clearRef, descAt_setDesc_ne s i j _ hij]
    exact h

theorem passedOver_clearRef (s : BufState) (i : Nat) : passedOver s (clearRef s i) := by
  refine ⟨rfl, rfl, rfl, fun j => sameCore_clearRef s i j, fun j h => refbit_clearRef s i j h⟩

/-- The positions a revolution visits, `(hand + 1), (hand + 2), ...` modulo the
pool size, cover every frame of the pool. -/
theorem sweep_coverage (N h i : Nat) (hN : 0 < N) (hi : i < N) :
    ∃ j < N, (h + j + 1) % N = i := by
  refine ⟨(i + N - (h + 1) % N) % N, Nat.mod_lt _ hN, ?_⟩
  have ha : (h + 1) % N ≤ i + N :=
    le_trans (Nat.le_of_lt (Nat.mod_lt _ hN)) (Nat.le_add_left N i)
  rw [Nat.add_right_comm h _ 1, Nat.add_mod_mod, ← Nat.mod_add_mod,
    Nat.add_sub_cancel' ha, Nat.add_mod_right, Nat.mod_eq_of_lt hi]

/-! ### One iteration of the sweep -/

theorem descAt_advanceClock (s : BufState) (j : Nat) :
    (advanceClock s).descAt j = s.descAt j := rfl

theorem clockHand_advanceClock (s : BufState) :
    (advanceClock s).clockHand = (s.clockHand + 1) % s.numBufs := rfl

theorem pageAt_advanceClock (s : BufState) (j : Nat) :
    (advanceClock s).pageAt j = s.pageAt j := rfl

/-- What the `return` paths of the sweep body guarantee: the selected frame is
the one under the advanced hand, the pool is untouched, and the three ways out
(an invalid frame; a clean, unpinned, unreferenced frame; a dirty, unpinned,
unreferenced frame that is written back, de-indexed and cleared) are exactly
the source's. -/
theorem visit_inl_spec (s : BufState) (fr : FrameId) (s' : BufState) (evs : List Ev)
    (h : visit s = .inl (fr, s', evs)) :
    fr = (s.clockHand + 1) % s.numBufs ∧
    s'.numBufs = s.numBufs ∧ s'.bufPool = s.bufPool ∧
    ( ((s.descAt fr).valid = false ∧ evs = [] ∧ s'.hashTable = s.hashTable ∧
        ∀ i, s'.descAt i = s.descAt i) ∨
      ((s.descAt fr).valid = true ∧ (s.descAt fr).pinCnt = 0 ∧ (s.descAt fr).refbit = false ∧
        (s.descAt fr).dirty = false ∧ evs = [] ∧ s'.hashTable = s.hashTable ∧
        ∀ i, s'.descAt i = s.descAt i) ∨
      ((s.descAt fr).valid = true ∧ (s.descAt fr).pinCnt = 0 ∧ (s.descAt fr).refbit = false ∧
        (s.descAt fr).dirty = true ∧
        evs = [Ev.write (s.descAt fr).file (s.pageAt fr)] ∧
        s'.hashTable = HashTbl.remove s.hashTable (s.descAt fr).file (s.descAt fr).pageNo ∧
        s'.descAt fr = BufDesc.Clear ∧
        ∀ i, i ≠ fr → s'.descAt i = s.descAt i) ) := by
  simp only [visit, descAt_advanceClock, clockHand_advanceClock, pageAt_advanceClock] at h
  by_cases h1 : (s.descAt ((s.clockHand + 1) % s.numBufs)).valid = false
  · rw [if_pos h1] at h
    simp only [Sum.inl.injEq, Prod.mk.injEq] at h
    obtain ⟨rfl, rfl, rfl⟩ := h
    exact ⟨rfl, rfl, rfl, Or.inl ⟨h1, rfl, rfl, fun i => rfl⟩⟩
  · rw [if_neg h1] at h
    have hval : (s.descAt ((s.clockHand + 1) % s.numBufs)).valid = true :=
      eq_true_of_ne_false h1
    by_cases h2 : (s.descAt ((s.clockHand + 1) % s.numBufs)).pinCnt = 0 ∧
        (s.descAt ((s.clockHand + 1) % s.numBufs)).refbit = false
    · rw [if_pos h2] at h
      by_cases h3 : (s.descAt ((s.clockHand + 1) % s.numBufs)).dirty = true
      · rw [if_pos h3] at h
        simp only [Sum.inl.injEq, Prod.mk.injEq] at h
        obtain ⟨rfl, rfl, rfl⟩ := h
        refine ⟨rfl, rfl, rfl, Or.inr (Or.inr ⟨hval, h2.1, h2.2, h3, rfl, rfl, ?_, ?_⟩)⟩
        · exact descAt_setDesc_clear (advanceClock s) _
        · intro i hi
          exact descAt_setDesc_ne (advanceClock s) _ i _ (fun hc => hi hc.symm)
      · rw [if_neg h3] at h
        simp only [Sum.inl.injEq, Prod.mk.injEq] at h
        obtain ⟨rfl, rfl, rfl⟩ := h
        exact ⟨rfl, rfl, rfl, Or.inr (Or.inl
          ⟨hval, h2.1, h2.2, eq_false_of_ne_true h3, rfl, rfl, fun i => rfl⟩)⟩
    · rw [if_neg h2] at h
      simp at h

/-- What falling through to the refbit-clearing line guarantees: the visited
frame is valid and was not selectable (pinned, or unpinned with its reference
bit still set), its reference bit is now clear, and `foundUnpin` was set
exactly when the frame was unpinned. -/
theorem visit_inr_spec (s s' : BufState) (saw : Bool)
    (h : visit s = .inr (s', saw)) :
    s' = clearRef (advanceClock s) ((s.clockHand + 1) % s.numBufs) ∧
    (s.descAt ((s.clockHand + 1) % s.numBufs)).valid = true ∧
    ¬((s.descAt ((s.clockHand + 1) % s.numBufs)).pinCnt = 0 ∧
        (s.descAt ((s.clockHand + 1) % s.numBufs)).refbit = false) ∧
    (saw = true ↔ (s.descAt ((s.clockHand + 1) % s.numBufs)).pinCnt = 0) := by
  simp only [visit, descAt_advanceClock, clockHand_advanceClock, pageAt_advanceClock] at h
  by_cases h1 : (s.descAt ((s.clockHand + 1) % s.numBufs)).valid = false
  · rw [if_pos h1] at h
    simp at h
  · rw [if_neg h1] at h
    by_cases h2 : (s.descAt ((s.clockHand + 1) % s.numBufs)).pinCnt = 0 ∧
        (s.descAt ((s.clockHand + 1) % s.numBufs)).refbit = false
    · rw [if_pos h2] at h
      by_cases h3 : (s.descAt ((s.clockHand + 1) % s.numBufs)).dirty = true
      · rw [if_pos h3] at h; simp at h
      · rw [if_neg h3] at h; simp at h
    · rw [if_neg h2] at h
      simp only [Sum.inr.injEq, Prod.mk.injEq] at h
      obtain ⟨rfl, rfl⟩ := h
      exact ⟨rfl, eq_true_of_ne_false h1, h2, by simp⟩

/-! ### What a completed sweep guarantees -/

/-- What a sweep that selects frame `fr` establishes, phrased against the
pre-sweep state `s`: capacity and pool untouched, and the three selection
cases of the source — an invalid frame (nothing else changes beyond reference
bits), a clean unpinned victim (likewise), or a dirty unpinned victim (one
write-back of the frame's current content, its index entry removed, its
descriptor cleared). -/
def AllocSpec (s : BufState) (fr : FrameId) (s' : BufState) (evs : List Ev) : Prop :=
  s'.numBufs = s.numBufs ∧ s'.bufPool = s.bufPool ∧
  ( ((s.descAt fr).valid = false ∧ evs = [] ∧ s'.hashTable = s.hashTable ∧
      ∀ i, sameCore (s'.descAt i) (s.descAt i)) ∨
    ((s.descAt fr).valid = true ∧ (s.descAt fr).pinCnt = 0 ∧ (s.descAt fr).dirty = false ∧
      evs = [] ∧ s'.hashTable = s.hashTable ∧
      ∀ i, sameCore (s'.descAt i) (s.descAt i)) ∨
    ((s.descAt fr).valid = true ∧ (s.descAt fr).pinCnt = 0 ∧ (s.descAt fr).dirty = true ∧
      evs = [Ev.write (s.descAt fr).file (s.pageAt fr)] ∧
      s'.hashTable = HashTbl.remove s.hashTable (s.descAt fr).file (s.descAt fr).pageNo ∧
      s'.descAt fr = BufDesc.Clear ∧
      ∀ i, i ≠ fr → sameCore (s'.descAt i) (s.descAt i)) )

/-- `AllocSpec` can be restated against any earlier state the sweep has merely
passed over. -/
theorem AllocSpec.transport {s₀ s s' : BufState} {fr : FrameId} {evs : List Ev}
    (hp : passedOver s₀ s) (ha : AllocSpec s fr s' evs) : AllocSpec s₀ fr s' evs := by
  obtain ⟨hn, hh, hb, hcore, _⟩ := hp
  obtain ⟨han, hab, hcase⟩ := ha
  have hfile : (s.descAt fr).file = (s₀.descAt fr).file := (hcore fr).1
  have hpage : (s.descAt fr).pageNo = (s₀.descAt fr).pageNo := (hcore fr).2.1
  have hpin : (s.descAt fr).pinCnt = (s₀.descAt fr).pinCnt := (hcore fr).2.2.1
  have hdirty : (s.descAt fr).dirty = (s₀.descAt fr).dirty := (hcore fr).2.2.2.1
  have hvalid : (s.descAt fr).valid = (s₀.descAt fr).valid := (hcore fr).2.2.2.2
  have hpg : s.pageAt fr = s₀.pageAt fr := by rw [BufState.pageAt, BufState.pageAt, hb]
  refine ⟨han.trans hn, hab.trans hb, ?_⟩
  rcases hcase with ⟨h1, h2, h3, h4⟩ | ⟨h1, h2, h3, h4, h5, h6⟩ | ⟨h1, h2, h3, h4, h5, h6, h7⟩
  · exact Or.inl ⟨hvalid.symm.trans h1, h2, h3.trans hh,
      fun i => sameCore_trans (h4 i) (hcore i)⟩
  · exact Or.inr (Or.inl ⟨hvalid.symm.trans h1, hpin.symm.trans h2, hdirty.symm.trans h3,
      h4, h5.trans hh, fun i => sameCore_trans (h6 i) (hcore i)⟩)
  · refine Or.inr (Or.inr ⟨hvalid.symm.trans h1, hpin.symm.trans h2, hdirty.symm.trans h3,
      ?_, ?_, h6, fun i hi => sameCore_trans (h7 i hi) (hcore i)⟩)
    · rw [h4, hfile, hpg]
    · rw [h5, hh, hfile, hpage]

/-- A sweep segment that returns satisfies `AllocSpec`, and in a nonempty pool
the selected frame is in range. -/
theorem revLoop_returned_spec : ∀ (k : Nat) (s : BufState) (found : Bool) (fr : FrameId)
    (s' : BufState) (evs : List Ev), revLoop k s found = .returned fr s' evs →
    AllocSpec s fr s' evs ∧ (0 < s.numBufs → fr < s.numBufs)
  | 0, s, found, fr, s', evs, h => by simp [revLoop] at h
  | k + 1, s, found, fr, s', evs, h => by
    rcases hv : visit s with ⟨fr0, s0, evs0⟩ | ⟨s2, saw⟩
    · simp only [revLoop, hv, RevRes.returned.injEq] at h
      obtain ⟨rfl, rfl, rfl⟩ := h
      obtain ⟨hfr, hn, hb, hcase⟩ := visit_inl_spec s fr0 s0 evs0 hv
      have hlt : 0 < s.numBufs → fr0 < s.numBufs := fun hN => hfr ▸ Nat.mod_lt _ hN
      refine ⟨⟨hn, hb, ?_⟩, hlt⟩
      rcases hcase with ⟨h1, h2, h3, h4⟩ | ⟨h1, h2, h3, h4, h5, h6, h7⟩ |
        ⟨h1, h2, h3, h4, h5, h6, h7, h8⟩
      · exact Or.inl ⟨h1, h2, h3, fun i => (h4 i) ▸ sameCore_refl _⟩
      · exact Or.inr (Or.inl ⟨h1, h2, h4, h5, h6, fun i => (h7 i) ▸ sameCore_refl _⟩)
      · exact Or.inr (Or.inr ⟨h1, h2, h4, h5, h6, h7,
          fun i hi => (h8 i hi) ▸ sameCore_refl _⟩)
    · simp only [revLoop, hv] at h
      obtain ⟨hs2, _, _, _⟩ := visit_inr_spec s s2 saw hv
      have hpo : passedOver s s2 := by
        rw [hs2]
        exact passedOver_trans (passedOver_advanceClock s) (passedOver_clearRef _ _)
      obtain ⟨hspec, hlt⟩ := revLoop_returned_spec k s2 (found || saw) fr s' evs h
      refine ⟨hspec.transport hpo, fun hN => ?_⟩
      have : s2.numBufs = s.numBufs := hpo.1
      exact this ▸ hlt (this ▸ hN)

/-- Shifting the visit position one step into a sweep. -/
theorem pos_shift (N h j : Nat) : ((h + 1) % N + j + 1) % N = (h + (j + 1) + 1) % N := by
  have he : (h + 1) + (j + 1) = h + (j + 1) + 1 := by omega
  rw [Nat.add_assoc, Nat.mod_add_mod, he]

/-- What a sweep segment that runs to completion (no `return`) guarantees:

* the frames are only passed over (reference bits may clear, nothing else);
* `foundUnpin` never falls back from true to false;
* every visited frame was valid and not selectable (pinned, or its reference
  bit was still set when visited);
* if `foundUnpin` ends false, every visited frame was pinned;
* if `foundUnpin` was set during the segment, some frame ends the segment
  valid, unpinned and with its reference bit clear (it will be selected within
  the next revolution). -/
theorem revLoop_completed_spec : ∀ (k : Nat) (s : BufState) (found : Bool) (s' : BufState)
    (found' : Bool), revLoop k s found = .completed s' found' →
    passedOver s s' ∧
    (found = true → found' = true) ∧
    (∀ j < k, (s.descAt ((s.clockHand + j + 1) % s.numBufs)).valid = true ∧
      ¬((s.descAt ((s.clockHand + j + 1) % s.numBufs)).pinCnt = 0 ∧
        (s.descAt ((s.clockHand + j + 1) % s.numBufs)).refbit = false)) ∧
    (found' = false → ∀ j < k,
      (s.descAt ((s.clockHand + j + 1) % s.numBufs)).pinCnt ≠ 0) ∧
    (0 < s.numBufs → found = false → found' = true →
      ∃ i < s'.numBufs, (s'.descAt i).valid = true ∧ (s'.descAt i).pinCnt = 0 ∧
        (s'.descAt i).refbit = false)
  | 0, s, found, s', found', h => by
    simp only [revLoop, RevRes.completed.injEq] at h
    obtain ⟨rfl, rfl⟩ := h
    exact ⟨passedOver_refl s, fun hf => hf, fun j hj => absurd hj (Nat.not_lt_zero j),
      fun _ j hj => absurd hj (Nat.not_lt_zero j),
      fun _ hf hf' => absurd (hf.symm.trans hf') (by simp)⟩
  | k + 1, s, found, s', found', h => by
    rcases hv : visit s with ⟨fr0, s0, evs0⟩ | ⟨s2, saw⟩
    · simp only [revLoop, hv] at h
      exact RevRes.noConfusion h
    · simp only [revLoop, hv] at h
      obtain ⟨hs2, hval0, hnosel0, hsaw⟩ := visit_inr_spec s s2 saw hv
      have hpo : passedOver s s2 := by
        rw [hs2]
        exact passedOver_trans (passedOver_advanceClock s) (passedOver_clearRef _ _)
      have hN2 : s2.numBufs = s.numBufs := hpo.1
      have hcore2 := hpo.2.2.2.1
      have href2 := hpo.2.2.2.2
      have hhand2 : s2.clockHand = (s.clockHand + 1) % s.numBufs := by
        rw [hs2]; rfl
      have hposj : ∀ j : Nat, (s2.clockHand + j + 1) % s2.numBufs =
          (s.clockHand + (j + 1) + 1) % s.numBufs := by
        intro j
        rw [hhand2, hN2, pos_shift]
      obtain ⟨iha, ihb, ihc, ihd, ihe⟩ :=
        revLoop_completed_spec k s2 (found || saw) s' found' h
      refine ⟨passedOver_trans hpo iha, ?_, ?_, ?_, ?_⟩
      · intro hf
        subst hf
        exact ihb rfl
      · intro j hj
        cases j with
        | zero => exact ⟨hval0, hnosel0⟩
        | succ j =>
          have hj' : j < k := Nat.lt_of_succ_lt_succ hj
          obtain ⟨hv1, hv2⟩ := ihc j hj'
          rw [hposj j] at hv1 hv2
          have hcv : (s2.descAt ((s.clockHand + (j + 1) + 1) % s.numBufs)).valid =
              (s.descAt ((s.clockHand + (j + 1) + 1) % s.numBufs)).valid :=
            (hcore2 _).2.2.2.2
          have hcp : (s2.descAt ((s.clockHand + (j + 1) + 1) % s.numBufs)).pinCnt =
              (s.descAt ((s.clockHand + (j + 1) + 1) % s.numBufs)).pinCnt :=
            (hcore2 _).2.2.1
          refine ⟨hcv.symm.trans hv1, fun hcon => hv2 ⟨hcp.trans hcon.1, href2 _ hcon.2⟩⟩
      · intro hf' j hj
        cases j with
        | zero =>
          intro hpin0
          have hpin0' : (s.descAt ((s.clockHand + 1) % s.numBufs)).pinCnt = 0 := by
            simpa using hpin0
          have hsawt : saw = true := hsaw.mpr hpin0'
          subst hsawt
          have hft : found' = true := ihb (by simp)
          rw [hf'] at hft
          exact Bool.false_ne_true hft
        | succ j =>
          have hj' : j < k := Nat.lt_of_succ_lt_succ hj
          have hpd := ihd hf' j hj'
          rw [hposj j] at hpd
          have hcp : (s2.descAt ((s.clockHand + (j + 1) + 1) % s.numBufs)).pinCnt =
              (s.descAt ((s.clockHand + (j + 1) + 1) % s.numBufs)).pinCnt :=
            (hcore2 _).2.2.1
          exact fun hcon => hpd (hcp.trans hcon)
      · intro hN hf hf'
        subst hf
        cases saw with
        | false => exact ihe (by rw [hN2]; exact hN) rfl hf'
        | true =>
          -- the frame that set `foundUnpin` is valid, unpinned, and its
          -- reference bit was cleared by this very visit
          have hpin0 : (s.descAt ((s.clockHand + 1) % s.numBufs)).pinCnt = 0 :=
            hsaw.mp rfl
          have hposlt : (s.clockHand + 1) % s.numBufs < s.numBufs := Nat.mod_lt _ hN
          have hinrange : (s.clockHand + 1) % s.numBufs <
              (advanceClock s).bufDescTable.length :=
            lt_length_of_valid (advanceClock s) _ hval0
          have hdesc2 : s2.descAt ((s.clockHand + 1) % s.numBufs) =
              { (advanceClock s).descAt ((s.clockHand + 1) % s.numBufs) with
                  refbit := false } := by
            rw [hs2, clearRef]
            exact descAt_setDesc_self (advanceClock s) _ _ hinrange
          have iha1 : s'.numBufs = s2.numBufs := iha.1
          have ihcore := iha.2.2.2.1
          have ihref := iha.2.2.2.2
          refine ⟨(s.clockHand + 1) % s.numBufs, ?_, ?_, ?_, ?_⟩
          · rw [iha1, hN2]; exact hposlt
          · rw [(ihcore _).2.2.2.2, hdesc2]; exact hval0
          · rw [(ihcore _).2.2.1, hdesc2]; exact hpin0
          · refine ihref _ ?_
            rw [hdesc2]

/-! ### `allocBuf` as a whole -/

theorem allocLoop_succ (fuel : Nat) (s : BufState) :
    allocLoop (fuel + 1) s =
      match revLoop s.numBufs s false with
      | .returned fr s' evs => .ok fr s' evs
      | .completed s' found => if found then allocLoop fuel s' else .exceeded s' := rfl

/-- A successful `allocBuf` satisfies `AllocSpec` against the pre-call state,
and in a nonempty pool the selected frame is in range. -/
theorem allocBuf_ok_spec (s : BufState) (fr : FrameId) (s' : BufState) (evs : List Ev)
    (hok : allocBuf s = .ok fr s' evs) :
    AllocSpec s fr s' evs ∧ (0 < s.numBufs → fr < s.numBufs) := by
  rw [allocBuf, show (2 : Nat) = 1 + 1 from rfl, allocLoop_succ] at hok
  rcases h1 : revLoop s.numBufs s false with ⟨fr1, st1, evs1⟩ | ⟨s1, f1⟩
  · rw [h1] at hok
    have hok' : AllocRes.ok fr1 st1 evs1 = AllocRes.ok fr s' evs := hok
    simp only [AllocRes.ok.injEq] at hok'
    obtain ⟨rfl, rfl, rfl⟩ := hok'
    exact revLoop_returned_spec _ s false fr1 st1 evs1 h1
  · rw [h1] at hok
    have hpo1 : passedOver s s1 := (revLoop_completed_spec _ s false s1 f1 h1).1
    have hN1 : s1.numBufs = s.numBufs := hpo1.1
    cases f1 with
    | false =>
      have hok' : AllocRes.exceeded s1 = AllocRes.ok fr s' evs := hok
      exact AllocRes.noConfusion hok'
    | true =>
      have hok' : allocLoop 1 s1 = AllocRes.ok fr s' evs := hok
      rw [show (1 : Nat) = 0 + 1 from rfl, allocLoop_succ] at hok'
      rcases h2 : revLoop s1.numBufs s1 false with ⟨fr2, st2, evs2⟩ | ⟨s2, f2⟩
      · rw [h2] at hok'
        have hok'' : AllocRes.ok fr2 st2 evs2 = AllocRes.ok fr s' evs := hok'
        simp only [AllocRes.ok.injEq] at hok''
        obtain ⟨rfl, rfl, rfl⟩ := hok''
        obtain ⟨hspec, hlt⟩ := revLoop_returned_spec _ s1 false fr2 st2 evs2 h2
        exact ⟨hspec.transport hpo1, fun hN => hN1 ▸ hlt (hN1.symm ▸ hN)⟩
      · rw [h2] at hok'
        cases f2 with
        | false => exact AllocRes.noConfusion (show AllocRes.exceeded s2 = _ from hok')
        | true => exact AllocRes.noConfusion (show AllocRes.outOfFuel s2 = _ from hok')

/-- A failing `allocBuf` means the pool really was exhausted: every frame
valid and pinned; and the failing sweep only cleared reference bits. -/
theorem allocBuf_exceeded_spec (s : BufState) (s' : BufState)
    (hex : allocBuf s = .exceeded s') : passedOver s s' ∧ allFramesPinned s := by
  rw [allocBuf, show (2 : Nat) = 1 + 1 from rfl, allocLoop_succ] at hex
  rcases h1 : revLoop s.numBufs s false with ⟨fr1, st1, evs1⟩ | ⟨s1, f1⟩
  · rw [h1] at hex
    exact AllocRes.noConfusion (show AllocRes.ok fr1 st1 evs1 = _ from hex)
  · rw [h1] at hex
    obtain ⟨hpo1, _, hc1, hd1, he1⟩ := revLoop_completed_spec _ s false s1 f1 h1
    have hN1 : s1.numBufs = s.numBufs := hpo1.1
    cases f1 with
    | false =>
      have hex' : AllocRes.exceeded s1 = AllocRes.exceeded s' := hex
      obtain rfl : s1 = s' := by
        simpa using hex'
      refine ⟨hpo1, ?_⟩
      intro i hi
      rcases Nat.eq_zero_or_pos s.numBufs with hz | hN
      · exact absurd hi (by rw [hz]; exact Nat.not_lt_zero i)
      · obtain ⟨j, hj, hpos⟩ := sweep_coverage s.numBufs s.clockHand i hN hi
        exact ⟨(hpos ▸ (hc1 j hj).1), hpos ▸ hd1 rfl j hj⟩
    | true =>
      have hex' : allocLoop 1 s1 = AllocRes.exceeded s' := hex
      rw [show (1 : Nat) = 0 + 1 from rfl, allocLoop_succ] at hex'
      rcases h2 : revLoop s1.numBufs s1 false with ⟨fr2, st2, evs2⟩ | ⟨s2, f2⟩
      · rw [h2] at hex'
        exact AllocRes.noConfusion (show AllocRes.ok fr2 st2 evs2 = _ from hex')
      · rw [h2] at hex'
        obtain ⟨hpo2, _, hc2, hd2, _⟩ := revLoop_completed_spec _ s1 false s2 f2 h2
        cases f2 with
        | true => exact AllocRes.noConfusion (show AllocRes.outOfFuel s2 = _ from hex')
        | false =>
          obtain rfl : s2 = s' := by
            have hex'' : AllocRes.exceeded s2 = AllocRes.exceeded s' := hex'
            simpa using hex''
          refine ⟨passedOver_trans hpo1 hpo2, ?_⟩
          intro i hi
          rcases Nat.eq_zero_or_pos s.numBufs with hz | hN
          · exact absurd hi (by rw [hz]; exact Nat.not_lt_zero i)
          · obtain ⟨j, hj, hpos⟩ := sweep_coverage s1.numBufs s1.clockHand i
              (hN1 ▸ hN) (hN1 ▸ hi)
            have hv2 := hpos ▸ (hc2 j hj).1
            have hp2 := hpos ▸ hd2 rfl j hj
            have hcore1 := hpo1.2.2.2.1
            have hcv : (s1.descAt i).valid = (s.descAt i).valid := (hcore1 i).2.2.2.2
            have hcp : (s1.descAt i).pinCnt = (s.descAt i).pinCnt := (hcore1 i).2.2.1
            exact ⟨hcv.symm.trans hv2, fun hc => hp2 (hcp.trans hc)⟩

/-- An exhausted pool makes `allocBuf` fail with `BufferExceededException`
after one full revolution: all frames are valid and pinned, the first
revolution sets nothing and `foundUnpin` stays false. -/
theorem revLoop_pinned : ∀ (k : Nat) (s : BufState) (found : Bool),
    0 < s.numBufs → allFramesPinned s →
    ∃ s', revLoop k s found = .completed s' found ∧ passedOver s s'
  | 0, s, found, _, _ => ⟨s, rfl, passedOver_refl s⟩
  | k + 1, s, found, hN, hp => by
    have hlt : (s.clockHand + 1) % s.numBufs < s.numBufs := Nat.mod_lt _ hN
    obtain ⟨hval, hpin⟩ := hp _ hlt
    have hv : visit s = .inr (clearRef (advanceClock s) ((s.clockHand + 1) % s.numBufs),
        false) := by
      rw [visit]
      simp only [descAt_advanceClock, clockHand_advanceClock]
      rw [if_neg (by simp [hval]), if_neg (fun hc => hpin hc.1)]
      simp [hpin]
    have hpo : passedOver s (clearRef (advanceClock s) ((s.clockHand + 1) % s.numBufs)) :=
      passedOver_trans (passedOver_advanceClock s) (passedOver_clearRef _ _)
    have hp2 : allFramesPinned (clearRef (advanceClock s) ((s.clockHand + 1) % s.numBufs)) := by
      intro i hi
      have hi' : i < s.numBufs := hpo.1 ▸ hi
      obtain ⟨hvv, hpp⟩ := hp i hi'
      have hcore := hpo.2.2.2.1
      exact ⟨((hcore i).2.2.2.2).trans hvv, fun hc => hpp (((hcore i).2.2.1).symm.trans hc)⟩
    obtain ⟨s', hrun, hpo'⟩ := revLoop_pinned k _ found (hpo.1 ▸ hN) hp2
    refine ⟨s', ?_, passedOver_trans hpo hpo'⟩
    rw [revLoop, hv]
    show revLoop k (clearRef (advanceClock s) ((s.clockHand + 1) % s.numBufs))
      (found || false) = RevRes.completed s' found
    rw [Bool.or_false]
    exact hrun

/-- On an exhausted pool `allocBuf` throws `BufferExceededException`, leaving
everything except reference bits untouched. -/
theorem allocBuf_pinned (s : BufState) (hp : allFramesPinned s) :
    ∃ s', allocBuf s = .exceeded s' ∧ passedOver s s' := by
  rcases Nat.eq_zero_or_pos s.numBufs with hz | hN
  · refine ⟨s, ?_, passedOver_refl s⟩
    rw [allocBuf, show (2 : Nat) = 1 + 1 from rfl, allocLoop_succ, hz]
    rfl
  · obtain ⟨s', hrun, hpo⟩ := revLoop_pinned s.numBufs s false hN hp
    refine ⟨s', ?_, hpo⟩
    rw [allocBuf, show (2 : Nat) = 1 + 1 from rfl, allocLoop_succ, hrun]
    rfl

/-- `allocBuf` never runs out of fuel: two revolutions always decide. -/
theorem allocBuf_total (s : BufState) (s' : BufState) : allocBuf s ≠ .outOfFuel s' := by
  intro hof
  rw [allocBuf, show (2 : Nat) = 1 + 1 from rfl, allocLoop_succ] at hof
  rcases h1 : revLoop s.numBufs s false with ⟨fr1, st1, evs1⟩ | ⟨s1, f1⟩
  · rw [h1] at hof
    exact AllocRes.noConfusion (show AllocRes.ok fr1 st1 evs1 = _ from hof)
  · rw [h1] at hof
    obtain ⟨hpo1, _, _, _, he1⟩ := revLoop_completed_spec _ s false s1 f1 h1
    have hN1 : s1.numBufs = s.numBufs := hpo1.1
    cases f1 with
    | false => exact AllocRes.noConfusion (show AllocRes.exceeded s1 = _ from hof)
    | true =>
      have hN : 0 < s.numBufs := by
        by_contra hz
        have hz' : s.numBufs = 0 := Nat.eq_zero_of_not_pos hz
        rw [hz'] at h1
        have : RevRes.completed s false = RevRes.completed s1 true := h1
        simp at this
      obtain ⟨i, hilt, hival, hipin, hiref⟩ := he1 hN rfl rfl
      have hof' : allocLoop 1 s1 = AllocRes.outOfFuel s' := hof
      rw [show (1 : Nat) = 0 + 1 from rfl, allocLoop_succ] at hof'
      rcases h2 : revLoop s1.numBufs s1 false with ⟨fr2, st2, evs2⟩ | ⟨s2, f2⟩
      · rw [h2] at hof'
        exact AllocRes.noConfusion (show AllocRes.ok fr2 st2 evs2 = _ from hof')
      · rw [h2] at hof'
        obtain ⟨_, _, hc2, _, _⟩ := revLoop_completed_spec _ s1 false s2 f2 h2
        obtain ⟨j, hj, hpos⟩ := sweep_coverage s1.numBufs s1.clockHand i
          (hN1 ▸ hN) hilt
        exact (hpos ▸ (hc2 j hj).2) ⟨hipin, hiref⟩

/-! ### Page Index removal -/

theorem lookup_remove_self (h : HashTbl) (f : FileId) (p : PageId) :
    HashTbl.lookup (HashTbl.remove h f p) f p = none := by
  rw [HashTbl.lookup, HashTbl.remove]
  rw [Option.map_eq_none', List.find?_eq_none]
  intro x hx
  have := (List.mem_filter.mp hx).2
  simpa using this

theorem lookup_remove_none (h : HashTbl) (f g : FileId) (p q : PageId)
    (hn : HashTbl.lookup h g q = none) :
    HashTbl.lookup (HashTbl.remove h f p) g q = none := by
  rw [HashTbl.lookup, HashTbl.remove, Option.map_eq_none', List.find?_eq_none]
  rw [HashTbl.lookup, Option.map_eq_none', List.find?_eq_none] at hn
  intro x hx
  exact hn x (List.mem_filter.mp hx).1

/-! ### The `flushFile` scan -/

/-- What an aborted `flushFile` scan leaves behind: there is an error frame
`j` owned by the file (invalid for `BadBufferException`, pinned for
`PagePinnedException`); every owned frame before `j` in the scanned window has
been written back if dirty, dropped from the Page Index and cleared; every
frame from `j` on — and everything before the window — is untouched. -/
theorem flushLoop_error_spec (f : FileId) : ∀ (k i : Nat) (s : BufState) (evs : List Ev)
    (e : BufErr) (s' : BufState) (evs' : List Ev),
    flushLoop f i k s evs = ⟨.error e, s', evs'⟩ →
    ∃ j, i ≤ j ∧ j < i + k ∧ (s.descAt j).file = f ∧
      ((e = .badBuffer ∧ (s.descAt j).valid = false) ∨
       (e = .pagePinned ∧ (s.descAt j).valid = true ∧ 0 < (s.descAt j).pinCnt)) ∧
      (∀ m, i ≤ m → m < j → (s.descAt m).file = f →
        s'.descAt m = BufDesc.Clear ∧
        HashTbl.lookup s'.hashTable f (s.descAt m).pageNo = none ∧
        ((s.descAt m).dirty = true → Ev.write f (s.pageAt m) ∈ evs')) ∧
      (∀ m, i ≤ m → m < j → (s.descAt m).file ≠ f → s'.descAt m = s.descAt m) ∧
      (∀ m, m < i ∨ j ≤ m → s'.descAt m = s.descAt m) ∧
      s'.bufPool = s.bufPool ∧ s'.numBufs = s.numBufs ∧
      (∃ tail, evs' = evs ++ tail) ∧
      (∀ g q, HashTbl.lookup s.hashTable g q = none →
        HashTbl.lookup s'.hashTable g q = none)
  | 0, i, s, evs, e, s', evs', h => by
    simp [flushLoop] at h
  | k + 1, i, s, evs, e, s', evs', h => by
    rw [flushLoop] at h
    by_cases hf : (s.descAt i).file = f
    · rw [if_pos hf] at h
      by_cases hinv : (s.descAt i).valid = false
      · rw [if_pos hinv] at h
        obtain ⟨he, rfl, rfl⟩ : Except.error e = Except.error BufErr.badBuffer ∧ s = s' ∧
            evs = evs' := by
          have := congrArg OpRes.res h
          have h2 := congrArg OpRes.st h
          have h3 := congrArg OpRes.evs h
          exact ⟨this.symm, h2, h3⟩
        obtain rfl : e = .badBuffer := by simpa using he
        refine ⟨i, Nat.le_refl i, by omega, hf, Or.inl ⟨rfl, hinv⟩,
          fun m h1 h2 _ => absurd (Nat.lt_of_le_of_lt h1 h2) (Nat.lt_irrefl i),
          fun m h1 h2 _ => absurd (Nat.lt_of_le_of_lt h1 h2) (Nat.lt_irrefl i),
          fun m _ => rfl, rfl, rfl, ⟨[], (List.append_nil evs).symm⟩, fun g q hq => hq⟩
      · rw [if_neg hinv] at h
        by_cases hpin : 0 < (s.descAt i).pinCnt
        · rw [if_pos hpin] at h
          obtain ⟨he, rfl, rfl⟩ : Except.error e = Except.error BufErr.pagePinned ∧
              s = s' ∧ evs = evs' := by
            have := congrArg OpRes.res h
            have h2 := congrArg OpRes.st h
            have h3 := congrArg OpRes.evs h
            exact ⟨this.symm, h2, h3⟩
          obtain rfl : e = .pagePinned := by simpa using he
          refine ⟨i, Nat.le_refl i, by omega, hf,
            Or.inr ⟨rfl, eq_true_of_ne_false hinv, hpin⟩,
            fun m h1 h2 _ => absurd (Nat.lt_of_le_of_lt h1 h2) (Nat.lt_irrefl i),
            fun m h1 h2 _ => absurd (Nat.lt_of_le_of_lt h1 h2) (Nat.lt_irrefl i),
            fun m _ => rfl, rfl, rfl, ⟨[], (List.append_nil evs).symm⟩, fun g q hq => hq⟩
        · rw [if_neg hpin] at h
          obtain ⟨j, hj1, hj2, hj3, hj4, hproc, hskip, huntouched, hpool, hnum, htail,
            hhmono⟩ := flushLoop_error_spec f k (i + 1) _ _ e s' evs' h
          have hs1d : ∀ m, m ≠ i →
              BufState.descAt
                { numBufs := s.numBufs,
                  bufDescTable := s.bufDescTable.set i BufDesc.Clear,
                  bufPool := s.bufPool,
                  hashTable := HashTbl.remove s.hashTable f (s.descAt i).pageNo,
                  clockHand := s.clockHand } m = s.descAt m := by
            intro m hm
            exact descAt_setDesc_ne s i m _ (fun hc => hm hc.symm)
          have hs1i : BufState.descAt
              { numBufs := s.numBufs,
                bufDescTable := s.bufDescTable.set i BufDesc.Clear,
                bufPool := s.bufPool,
                hashTable := HashTbl.remove s.hashTable f (s.descAt i).pageNo,
                clockHand := s.clockHand } i = BufDesc.Clear := descAt_setDesc_clear s i
          refine ⟨j, by omega, by omega, ?_, ?_, ?_, ?_, ?_, hpool, hnum, ?_, ?_⟩
          · rw [← hs1d j (by omega)]; exact hj3
          · rcases hj4 with ⟨he, hv⟩ | ⟨he, hv, hp⟩
            · exact Or.inl ⟨he, by rw [← hs1d j (by omega)]; exact hv⟩
            · exact Or.inr ⟨he, by rw [← hs1d j (by omega)]; exact hv,
                by rw [← hs1d j (by omega)]; exact hp⟩
          · intro m h1 h2 h3
            rcases Nat.eq_or_lt_of_le h1 with rfl | hlt
            · refine ⟨(huntouched i (Or.inl (by omega))).trans hs1i, ?_, ?_⟩
              · refine hhmono f (s.descAt i).pageNo ?_
                exact lookup_remove_self s.hashTable f (s.descAt i).pageNo
              · intro hdirty
                obtain ⟨tail, htail'⟩ := htail
                rw [htail', hdirty]
                simp
            · obtain ⟨hc1, hc2, hc3⟩ := hproc m hlt h2 (by rw [hs1d m (by omega)]; exact h3)
              rw [hs1d m (by omega)] at hc2 hc3
              exact ⟨hc1, hc2, fun hd => hc3 hd⟩
          · intro m h1 h2 h3
            rcases Nat.eq_or_lt_of_le h1 with rfl | hlt
            · exact absurd hf h3
            · have := hskip m hlt h2 (by rw [hs1d m (by omega)]; exact h3)
              rw [hs1d m (by omega)] at this
              exact this
          · intro m hm
            rcases hm with hm | hm
            · exact (huntouched m (Or.inl (by omega))).trans (hs1d m (by omega))
            · exact (huntouched m (Or.inr hm)).trans (hs1d m (by omega))
          · obtain ⟨tail, htail'⟩ := htail
            refine ⟨(if (s.descAt i).dirty = true then [Ev.write f (s.pageAt i)] else []) ++
              tail, ?_⟩
            rw [htail', List.append_assoc]
          · intro g q hq
            refine hhmono g q ?_
            exact lookup_remove_none s.hashTable f g (s.descAt i).pageNo q hq
    · rw [if_neg hf] at h
      obtain ⟨j, hj1, hj2, hj3, hj4, hproc, hskip, huntouched, hpool, hnum, htail,
        hhmono⟩ := flushLoop_error_spec f k (i + 1) s evs e s' evs' h
      refine ⟨j, by omega, by omega, hj3, hj4, ?_, ?_, ?_, hpool, hnum, htail, hhmono⟩
      · intro m h1 h2 h3
        rcases Nat.eq_or_lt_of_le h1 with rfl | hlt
        · exact absurd h3 hf
        · exact hproc m hlt h2 h3
      · intro m h1 h2 h3
        rcases Nat.eq_or_lt_of_le h1 with rfl | hlt
        · exact huntouched i (Or.inl (by omega))
        · exact hskip m hlt h2 h3
      · intro m hm
        rcases hm with hm | hm
        · exact huntouched m (Or.inl (by omega))
        · exact huntouched m (Or.inr hm)

/-! ### Concrete executions

`traceA*` drives a one-frame manager through public operations only; it
exhibits the stale Page Index entry that `allocBuf` leaves behind when it
reuses a clean (non-dirty) victim, and the pinned-frame eviction that the
stale entry later enables.  `traceB*` reaches, through public operations, a
state holding a stale index entry for file 1 while no frame is owned by
file 1. -/

def traceA0 : BufState := initBufMgr 1

def traceA1 : BufState := (readPage 1 1 ⟨1, 11⟩ traceA0).st

def traceA2 : BufState := (unPinPage 1 1 false traceA1).st

def traceA3 : BufState := (readPage 1 2 ⟨2, 22⟩ traceA2).st

def traceA4 : BufState := (unPinPage 1 2 false traceA3).st

def traceA5 : BufState := (disposePage 1 2 traceA4).st

def traceA6 : BufState := (readPage 1 1 ⟨1, 11⟩ traceA5).st

def traceB0 : BufState := initBufMgr 1

def traceB1 : BufState := (readPage 1 1 ⟨1, 11⟩ traceB0).st

def traceB2 : BufState := (unPinPage 1 1 false traceB1).st

def traceB3 : BufState := (readPage 2 1 ⟨1, 33⟩ traceB2).st

def traceB4 : BufState := (unPinPage 2 1 false traceB3).st

/-! ### Claim C1 -/

/-- Claim C1 (code bug): the Page Index / Frame Table agreement invariant —
an entry exists iff the frame's owner equals the key and its valid bit is
true — is violated in a state reachable by public operations alone.  On a
one-frame pool, `readPage(f,1); unPinPage(f,1,false); readPage(f,2)` makes
`allocBuf` reuse frame 0 as a clean victim without removing its index entry
(the removal in `BufMgr::allocBuf` sits inside the `dirty == true` branch
only), so the index still maps `(1,1)` to frame 0 while the frame's owner is
`(1,2)`. -/
theorem c1_agreement_broken_after_clean_victim :
    traceA3.hashTable.lookup 1 1 = some 0 ∧
    (traceA3.descAt 0).valid = true ∧
    (traceA3.descAt 0).file = 1 ∧ (traceA3.descAt 0).pageNo = 2 ∧
    ¬((traceA3.descAt 0).file = 1 ∧ (traceA3.descAt 0).pageNo = 1 ∧
      (traceA3.descAt 0).valid = true) := by decide

/-! ### Claim C2 -/

/-- Claim C2: whenever `allocBuf` selects a valid dirty victim, it performs
exactly one `writePage` call carrying the frame's pre-eviction pool content,
removes the victim's (file, pageNumber) entry from the Page Index, clears the
frame's descriptor, and returns that frame's identifier; such a victim
necessarily had pin count zero. -/
theorem c2_dirty_victim_writeback (s : BufState) (fr : FrameId) (s' : BufState)
    (evs : List Ev) (hok : allocBuf s = .ok fr s' evs)
    (hvalid : (s.descAt fr).valid = true) (hdirty : (s.descAt fr).dirty = true) :
    (s.descAt fr).pinCnt = 0 ∧
    evs = [Ev.write (s.descAt fr).file (s.pageAt fr)] ∧
    s'.hashTable = HashTbl.remove s.hashTable (s.descAt fr).file (s.descAt fr).pageNo ∧
    HashTbl.lookup s'.hashTable (s.descAt fr).file (s.descAt fr).pageNo = none ∧
    s'.descAt fr = BufDesc.Clear := by
  obtain ⟨⟨hn, hb, hcase⟩, _⟩ := allocBuf_ok_spec s fr s' evs hok
  rcases hcase with ⟨h1, _⟩ | ⟨_, _, h3, _⟩ | ⟨h1, h2, h3, h4, h5, h6, _⟩
  · rw [hvalid] at h1
    exact absurd h1 (by simp)
  · rw [hdirty] at h3
    exact absurd h3 (by simp)
  · exact ⟨h2, h4, h5, by rw [h5]; exact lookup_remove_self _ _ _, h6⟩

def c2w : BufState :=
  { numBufs := 1, bufDescTable := [⟨1, 5, 0, true, true, false⟩],
    bufPool := [⟨5, 42⟩], hashTable := [((1, 5), 0)], clockHand := 0 }

def c2wAfter : BufState :=
  { numBufs := 1, bufDescTable := [BufDesc.Clear],
    bufPool := [⟨5, 42⟩], hashTable := [], clockHand := 0 }

/-- Claim C2, witness: the dirty-victim path exercised on a concrete
one-frame pool. -/
theorem c2_dirty_victim_writeback_witness :
    (c2w.descAt 0).pinCnt = 0 ∧
    [Ev.write 1 ⟨5, 42⟩] = [Ev.write (c2w.descAt 0).file (c2w.pageAt 0)] ∧
    c2wAfter.hashTable =
      HashTbl.remove c2w.hashTable (c2w.descAt 0).file (c2w.descAt 0).pageNo ∧
    HashTbl.lookup c2wAfter.hashTable (c2w.descAt 0).file (c2w.descAt 0).pageNo = none ∧
    c2wAfter.descAt 0 = BufDesc.Clear :=
  c2_dirty_victim_writeback c2w 0 c2wAfter [Ev.write 1 ⟨5, 42⟩]
    (by decide) (by decide) (by decide)

/-! ### Claim C3 -/

/-- Claim C3 (code bug): in a state reachable by public operations alone,
`allocBuf` selects a frame whose pin count is 1.  The stale index entry of
claim C1, after the reused page is disposed, lets `readPage` pin the cleared
(invalid) frame; `allocBuf` then selects it immediately because its valid bit
is false, pin count notwithstanding. -/
theorem c3_pinned_frame_selected :
    (traceA6.descAt 0).pinCnt = 1 ∧ (allocBuf traceA6).victim = some 0 := by decide

/-! ### Claim C4 -/

/-- Claim C4: `allocBuf` fails with `BufferExceededException` exactly when a
complete revolution observes no invalid frame and no valid frame with pin
count zero — that is, exactly when every frame is valid and pinned; the
fuel-based embedding never runs out of fuel (the sweep terminates); and a
`readPage` miss on such an exhausted pool surfaces `BufferExceededException`. -/
theorem c4_exhaustion_iff (s : BufState) :
    ((∃ s', allocBuf s = .exceeded s') ↔ allFramesPinned s) ∧
    (∀ s', allocBuf s ≠ .outOfFuel s') ∧
    (∀ (f : FileId) (p : PageId) (c : Page), allFramesPinned s →
      HashTbl.lookup s.hashTable f p = none →
      (readPage f p c s).res = .error .bufferExceeded) := by
  refine ⟨⟨?_, ?_⟩, fun s' => allocBuf_total s s', ?_⟩
  · rintro ⟨s', hex⟩
    exact (allocBuf_exceeded_spec s s' hex).2
  · intro hp
    obtain ⟨s', hex, _⟩ := allocBuf_pinned s hp
    exact ⟨s', hex⟩
  · intro f p c hp hmiss
    obtain ⟨s', hex, _⟩ := allocBuf_pinned s hp
    simp [readPage, hmiss, hex]

def w4 : BufState :=
  { numBufs := 2,
    bufDescTable := [⟨1, 1, 1, false, true, true⟩, ⟨1, 2, 1, false, true, false⟩],
    bufPool := [⟨1, 0⟩, ⟨2, 0⟩], hashTable := [((1, 1), 0), ((1, 2), 1)], clockHand := 1 }

/-- Claim C4, witness: a two-frame pool with both pages pinned exhausts, and a
`readPage` of a third distinct page fails with `BufferExceededException`. -/
theorem c4_exhaustion_iff_witness :
    (∃ s', allocBuf w4 = .exceeded s') ∧
    (readPage 1 3 ⟨3, 0⟩ w4).res = .error .bufferExceeded :=
  ⟨(c4_exhaustion_iff w4).1.mpr (by decide),
   (c4_exhaustion_iff w4).2.2 1 3 ⟨3, 0⟩ (by decide) (by decide)⟩

/-! ### Claim C5 -/

def c5s : BufState :=
  { numBufs := 2, bufDescTable := [⟨1, 7, 1, false, true, true⟩, BufDesc.Clear],
    bufPool := [⟨7, 1⟩, ⟨0, 0⟩], hashTable := [((1, 7), 0)], clockHand := 1 }

/-- Claim C5, counterexample: a sweep visiting a valid pinned frame does
modify it — the unconditional `bufDescTable[clockHand].refbit = false` line
clears its reference bit.  Frame 0 is valid, pinned, with its reference bit
set; the sweep passes it (selecting frame 1) and its reference bit is false
afterwards. -/
theorem c5_visit_clears_refbit_of_pinned :
    (c5s.descAt 0).valid = true ∧ (c5s.descAt 0).pinCnt = 1 ∧
    (c5s.descAt 0).refbit = true ∧
    (allocBuf c5s).victim = some 1 ∧
    ((allocBuf c5s).stateAfter.descAt 0).refbit = false := by decide

/-- Claim C5, amended: visiting a valid frame with nonzero pin count leaves
its owner (file, pageNumber), pin count, dirty bit and valid bit unchanged and
the sweep continues past it (it is never the selected frame); only its
reference bit may be cleared by the visit. -/
theorem c5_amended_pinned_visit_preserves_core (s : BufState) (fr : FrameId)
    (s' : BufState) (evs : List Ev) (i : Nat) (hok : allocBuf s = .ok fr s' evs)
    (hvalid : (s.descAt i).valid = true) (hpin : (s.descAt i).pinCnt ≠ 0) :
    fr ≠ i ∧
    (s'.descAt i).file = (s.descAt i).file ∧
    (s'.descAt i).pageNo = (s.descAt i).pageNo ∧
    (s'.descAt i).pinCnt = (s.descAt i).pinCnt ∧
    (s'.descAt i).dirty = (s.descAt i).dirty ∧
    (s'.descAt i).valid = (s.descAt i).valid := by
  obtain ⟨⟨_, _, hcase⟩, _⟩ := allocBuf_ok_spec s fr s' evs hok
  have hfr : fr ≠ i := by
    rintro rfl
    rcases hcase with ⟨h1, _⟩ | ⟨_, h2, _⟩ | ⟨_, h2, _⟩
    · rw [hvalid] at h1
      exact absurd h1 (by simp)
    · exact hpin h2
    · exact hpin h2
  refine ⟨hfr, ?_⟩
  rcases hcase with ⟨_, _, _, h4⟩ | ⟨_, _, _, _, _, h6⟩ | ⟨_, _, _, _, _, _, h7⟩
  · exact h4 i
  · exact h6 i
  · exact h7 i (fun hc => hfr hc.symm)

def c5after : BufState :=
  { numBufs := 2, bufDescTable := [⟨1, 7, 1, false, true, false⟩, BufDesc.Clear],
    bufPool := [⟨7, 1⟩, ⟨0, 0⟩], hashTable := [((1, 7), 0)], clockHand := 1 }

/-- Claim C5, witness for the amended statement. -/
theorem c5_amended_pinned_visit_preserves_core_witness :
    (1 : FrameId) ≠ 0 ∧
    (c5after.descAt 0).file = (c5s.descAt 0).file ∧
    (c5after.descAt 0).pageNo = (c5s.descAt 0).pageNo ∧
    (c5after.descAt 0).pinCnt = (c5s.descAt 0).pinCnt ∧
    (c5after.descAt 0).dirty = (c5s.descAt 0).dirty ∧
    (c5after.descAt 0).valid = (c5s.descAt 0).valid :=
  c5_amended_pinned_visit_preserves_core c5s 1 c5after [] 0
    (by decide) (by decide) (by decide)

/-! ### Claim C6 -/

/-- Claim C6: `unPinPage(file, pageNumber, markDirty)` is a silent no-op when
the key is not in the Page Index; fails with `PageNotPinnedException`, leaving
the state unchanged, when the indexed frame's pin count is zero; and otherwise
decrements that frame's pin count by exactly one and ors the dirty bit with
`markDirty`, leaving every other field of the frame, every other frame, the
index, the pool and the capacity unchanged, with no Page Store calls. -/
theorem c6_unPinPage_spec (s : BufState) (f : FileId) (p : PageId) (md : Bool) :
    (HashTbl.lookup s.hashTable f p = none →
      unPinPage f p md s = ⟨.ok (), s, []⟩) ∧
    (∀ fr, HashTbl.lookup s.hashTable f p = some fr → (s.descAt fr).pinCnt = 0 →
      unPinPage f p md s = ⟨.error .notPinned, s, []⟩) ∧
    (∀ fr, HashTbl.lookup s.hashTable f p = some fr → (s.descAt fr).pinCnt ≠ 0 →
      (unPinPage f p md s).res = .ok () ∧ (unPinPage f p md s).evs = [] ∧
      (unPinPage f p md s).st.descAt fr =
        { s.descAt fr with
            pinCnt := (s.descAt fr).pinCnt - 1, dirty := (s.descAt fr).dirty || md } ∧
      (∀ i, i ≠ fr → (unPinPage f p md s).st.descAt i = s.descAt i) ∧
      (unPinPage f p md s).st.hashTable = s.hashTable ∧
      (unPinPage f p md s).st.bufPool = s.bufPool ∧
      (unPinPage f p md s).st.numBufs = s.numBufs) := by
  refine ⟨?_, ?_, ?_⟩
  · intro hmiss
    simp [unPinPage, hmiss]
  · intro fr hhit hp0
    simp [unPinPage, hhit, hp0]
  · intro fr hhit hpnz
    have hlt : fr < s.bufDescTable.length := lt_length_of_pinned s fr hpnz
    simp only [unPinPage, hhit]
    rw [if_neg hpnz]
    refine ⟨rfl, rfl, ?_, ?_, rfl, rfl, rfl⟩
    · exact descAt_setDesc_self s fr _ hlt
    · intro i hi
      exact descAt_setDesc_ne s fr i _ (fun hc => hi hc.symm)

def wc6 : BufState :=
  { numBufs := 1, bufDescTable := [⟨1, 4, 2, false, true, true⟩],
    bufPool := [⟨4, 3⟩], hashTable := [((1, 4), 0)], clockHand := 0 }

def wc6zero : BufState :=
  { numBufs := 1, bufDescTable := [⟨1, 4, 0, false, true, true⟩],
    bufPool := [⟨4, 3⟩], hashTable := [((1, 4), 0)], clockHand := 0 }

/-- Claim C6, witness: the three `unPinPage` behaviors on concrete states —
unbuffered key (no-op), pin count already zero (`PageNotPinnedException`), and
a pinned page unpinned with `markDirty = true`. -/
theorem c6_unPinPage_spec_witness :
    unPinPage 1 9 true wc6 = ⟨.ok (), wc6, []⟩ ∧
    unPinPage 1 4 false wc6zero = ⟨.error .notPinned, wc6zero, []⟩ ∧
    ((unPinPage 1 4 true wc6).res = .ok () ∧ (unPinPage 1 4 true wc6).evs = [] ∧
      (unPinPage 1 4 true wc6).st.descAt 0 =
        { wc6.descAt 0 with
            pinCnt := (wc6.descAt 0).pinCnt - 1, dirty := (wc6.descAt 0).dirty || true } ∧
      (∀ i, i ≠ 0 → (unPinPage 1 4 true wc6).st.descAt i = wc6.descAt i) ∧
      (unPinPage 1 4 true wc6).st.hashTable = wc6.hashTable ∧
      (unPinPage 1 4 true wc6).st.bufPool = wc6.bufPool ∧
      (unPinPage 1 4 true wc6).st.numBufs = wc6.numBufs) :=
  ⟨(c6_unPinPage_spec wc6 1 9 true).1 (by decide),
   (c6_unPinPage_spec wc6zero 1 4 false).2.1 0 (by decide) (by decide),
   (c6_unPinPage_spec wc6 1 4 true).2.2 0 (by decide) (by decide)⟩

/-! ### Claim C7 -/

/-- Claim C7: `disposePage(file, pageNumber)` on a buffered pinned page fails
with `PagePinnedException`, leaving the whole state unchanged and making no
Page Store call (in particular `deletePage` is not invoked, since the throw
unwinds past it); on a buffered unpinned page it clears the frame, removes the
index entry, and makes exactly one Page Store call — `deletePage`, never a
write-back; on an unbuffered page it only calls `deletePage`. -/
theorem c7_disposePage_spec (s : BufState) (f : FileId) (p : PageId) :
    (∀ fr, HashTbl.lookup s.hashTable f p = some fr → 0 < (s.descAt fr).pinCnt →
      disposePage f p s = ⟨.error .pagePinned, s, []⟩) ∧
    (∀ fr, HashTbl.lookup s.hashTable f p = some fr → ¬ 0 < (s.descAt fr).pinCnt →
      (disposePage f p s).res = .ok () ∧
      (disposePage f p s).evs = [Ev.del f p] ∧
      (disposePage f p s).st.descAt fr = BufDesc.Clear ∧
      HashTbl.lookup (disposePage f p s).st.hashTable f p = none ∧
      (∀ i, i ≠ fr → (disposePage f p s).st.descAt i = s.descAt i) ∧
      (disposePage f p s).st.bufPool = s.bufPool) ∧
    (HashTbl.lookup s.hashTable f p = none →
      disposePage f p s = ⟨.ok (), s, [Ev.del f p]⟩) := by
  refine ⟨?_, ?_, ?_⟩
  · intro fr hhit hpin
    simp [disposePage, hhit, hpin]
  · intro fr hhit hpin
    simp only [disposePage, hhit]
    rw [if_neg hpin]
    refine ⟨rfl, rfl, ?_, ?_, ?_, rfl⟩
    · exact descAt_setDesc_clear s fr
    · exact lookup_remove_self s.hashTable f p
    · intro i hi
      exact descAt_setDesc_ne s fr i _ (fun hc => hi hc.symm)
  · intro hmiss
    simp [disposePage, hmiss]

/-- Claim C7, witness: disposal of a pinned buffered page, of an unpinned
buffered page, and of an unbuffered page, on concrete states. -/
theorem c7_disposePage_spec_witness :
    disposePage 1 4 wc6 = ⟨.error .pagePinned, wc6, []⟩ ∧
    ((disposePage 1 4 wc6zero).res = .ok () ∧
      (disposePage 1 4 wc6zero).evs = [Ev.del 1 4] ∧
      (disposePage 1 4 wc6zero).st.descAt 0 = BufDesc.Clear ∧
      HashTbl.lookup (disposePage 1 4 wc6zero).st.hashTable 1 4 = none ∧
      (∀ i, i ≠ 0 → (disposePage 1 4 wc6zero).st.descAt i = wc6zero.descAt i) ∧
      (disposePage 1 4 wc6zero).st.bufPool = wc6zero.bufPool) ∧
    disposePage 1 9 wc6 = ⟨.ok (), wc6, [Ev.del 1 9]⟩ :=
  ⟨(c7_disposePage_spec wc6 1 4).1 0 (by decide) (by decide),
   (c7_disposePage_spec wc6zero 1 4).2.1 0 (by decide) (by decide),
   (c7_disposePage_spec wc6 1 9).2.2 (by decide)⟩

/-! ### Claim C8 -/

/-- Claim C8: when `flushFile(file)` raises `PagePinnedException` or
`BadBufferException` at a frame `j` owned by the file, every owned frame with
index below `j` has already been written back if dirty, removed from the Page
Index and cleared, while every frame from `j` on is completely untouched. -/
theorem c8_flushFile_partial (f : FileId) (s : BufState) (e : BufErr) (s' : BufState)
    (evs : List Ev) (h : flushFile f s = ⟨.error e, s', evs⟩) :
    ∃ j < s.numBufs, (s.descAt j).file = f ∧
      ((e = .badBuffer ∧ (s.descAt j).valid = false) ∨
       (e = .pagePinned ∧ (s.descAt j).valid = true ∧ 0 < (s.descAt j).pinCnt)) ∧
      (∀ m < j, (s.descAt m).file = f →
        s'.descAt m = BufDesc.Clear ∧
        HashTbl.lookup s'.hashTable f (s.descAt m).pageNo = none ∧
        ((s.descAt m).dirty = true → Ev.write f (s.pageAt m) ∈ evs)) ∧
      (∀ m, j ≤ m → s'.descAt m = s.descAt m) := by
  rw [flushFile] at h
  obtain ⟨j, _, hj2, hj3, hj4, hproc, _, huntouched, _, _, _, _⟩ :=
    flushLoop_error_spec f s.numBufs 0 s [] e s' evs h
  refine ⟨j, by omega, hj3, hj4, ?_, ?_⟩
  · intro m hm hf
    exact hproc m (Nat.zero_le m) hm hf
  · intro m hm
    exact huntouched m (Or.inr hm)

def wc8 : BufState :=
  { numBufs := 2,
    bufDescTable := [⟨2, 3, 0, true, true, false⟩, ⟨2, 4, 1, false, true, true⟩],
    bufPool := [⟨3, 77⟩, ⟨4, 88⟩], hashTable := [((2, 3), 0), ((2, 4), 1)], clockHand := 0 }

def wc8After : BufState :=
  { numBufs := 2,
    bufDescTable := [BufDesc.Clear, ⟨2, 4, 1, false, true, true⟩],
    bufPool := [⟨3, 77⟩, ⟨4, 88⟩], hashTable := [((2, 4), 1)], clockHand := 0 }

/-- Claim C8, witness: flushing a file whose first frame is dirty and
unpinned but whose second frame is pinned aborts at the second frame with
`PagePinnedException`, after the first frame was written back, de-indexed and
cleared. -/
theorem c8_flushFile_partial_witness :
    ∃ j < wc8.numBufs, (wc8.descAt j).file = 2 ∧
      ((BufErr.pagePinned = .badBuffer ∧ (wc8.descAt j).valid = false) ∨
       (BufErr.pagePinned = .pagePinned ∧ (wc8.descAt j).valid = true ∧
        0 < (wc8.descAt j).pinCnt)) ∧
      (∀ m < j, (wc8.descAt m).file = 2 →
        wc8After.descAt m = BufDesc.Clear ∧
        HashTbl.lookup wc8After.hashTable 2 (wc8.descAt m).pageNo = none ∧
        ((wc8.descAt m).dirty = true →
          Ev.write 2 (wc8.pageAt m) ∈ [Ev.write 2 ⟨3, 77⟩])) ∧
      (∀ m, j ≤ m → wc8After.descAt m = wc8.descAt m) :=
  c8_flushFile_partial 2 wc8 .pagePinned wc8After [Ev.write 2 ⟨3, 77⟩] (by decide)

/-! ### Claim C9 -/

/-- Claim C9 (code bug): in a state reachable by public operations alone in
which every frame owned by file 1 is valid with pin count zero (vacuously: no
frame is owned by file 1), `flushFile(1)` completes without error and changes
nothing — yet the Page Index still holds the entry `((1,1) → 0)` for a page of
file 1, left stale by clean-victim reuse, contradicting the claim that no
entry for any page of the file survives the flush. -/
theorem c9_flushFile_leaves_stale_entry :
    (∀ i < traceB4.numBufs, (traceB4.descAt i).file = 1 →
      (traceB4.descAt i).valid = true ∧ (traceB4.descAt i).pinCnt = 0) ∧
    flushFile 1 traceB4 = ⟨.ok (), traceB4, []⟩ ∧
    traceB4.hashTable.lookup 1 1 = some 0 := by decide

/-! ### Claim C10 -/

def c10s : BufState :=
  { numBufs := 1, bufDescTable := [⟨1, 5, 1, false, true, true⟩],
    bufPool := [⟨5, 9⟩], hashTable := [((1, 5), 0)], clockHand := 0 }

/-- Claim C10, counterexample: when `allocPage` fails with
`BufferExceededException`, the frame table is not left unchanged — the failed
sweep has cleared the reference bit of the (pinned, valid) frame it visited. -/
theorem c10_failed_allocPage_changes_refbit :
    (allocPage 1 ⟨6, 0⟩ c10s).res = .error .bufferExceeded ∧
    (allocPage 1 ⟨6, 0⟩ c10s).evs = [Ev.allocP 1] ∧
    (c10s.descAt 0).refbit = true ∧
    ((allocPage 1 ⟨6, 0⟩ c10s).st.descAt 0).refbit = false := by decide

/-- Claim C10, amended: `allocPage(file)` calls the Page Store's
`allocatePage` before attempting to obtain a frame, so on an exhausted pool
the call fails with `BufferExceededException` with the store-side allocation
already performed and not rolled back (the event list is exactly the one
`allocatePage` call); the new page is registered in neither the Page Index nor
any frame: the index, the pool, the capacity and every frame's owner, pin
count, dirty and valid bits are unchanged — only reference bits may have been
cleared by the failed sweep. -/
theorem c10_amended_failed_allocPage (s : BufState) (f : FileId) (pg : Page)
    (hp : allFramesPinned s) :
    ∃ s', allocPage f pg s = ⟨.error .bufferExceeded, s', [Ev.allocP f]⟩ ∧
      s'.hashTable = s.hashTable ∧ s'.bufPool = s.bufPool ∧ s'.numBufs = s.numBufs ∧
      ∀ i, (s'.descAt i).file = (s.descAt i).file ∧
        (s'.descAt i).pageNo = (s.descAt i).pageNo ∧
        (s'.descAt i).pinCnt = (s.descAt i).pinCnt ∧
        (s'.descAt i).dirty = (s.descAt i).dirty ∧
        (s'.descAt i).valid = (s.descAt i).valid := by
  obtain ⟨s', hex, hpo⟩ := allocBuf_pinned s hp
  refine ⟨s', ?_, hpo.2.1, hpo.2.2.1, hpo.1, fun i => hpo.2.2.2.1 i⟩
  simp [allocPage, hex]

/-- Claim C10, witness for the amended statement: the failed `allocPage` on a
fully pinned one-frame pool. -/
theorem c10_amended_failed_allocPage_witness :
    ∃ s', allocPage 1 ⟨6, 0⟩ c10s = ⟨.error .bufferExceeded, s', [Ev.allocP 1]⟩ ∧
      s'.hashTable = c10s.hashTable ∧ s'.bufPool = c10s.bufPool ∧
      s'.numBufs = c10s.numBufs ∧
      ∀ i, (s'.descAt i).file = (c10s.descAt i).file ∧
        (s'.descAt i).pageNo = (c10s.descAt i).pageNo ∧
        (s'.descAt i).pinCnt = (c10s.descAt i).pinCnt ∧
        (s'.descAt i).dirty = (c10s.descAt i).dirty ∧
        (s'.descAt i).valid = (c10s.descAt i).valid :=
  c10_amended_failed_allocPage c10s 1 ⟨6, 0⟩ (by decide)

end BadgerDB
